import Mathlib

/-!
Verification of the crop4mkv crop-sample aggregation engine.

The definitions below are a shallow embedding of the TypeScript source
(src/src/index.ts, src/src/types.ts and the error module).  JavaScript
numbers that hold integer pixel counts are modelled as `Int`; the film
duration (a real number of seconds reported by ffprobe) is modelled as
`Rat`.  Code that throws returns `Except JsError`; a typed
`InternalError` becomes `JsError.internal kind` and any other runtime
exception (for example a TypeError from dereferencing `undefined`)
becomes `JsError.untyped`.
-/

namespace Crop4mkv

/-- Axis direction tag, from `enum Direction { X, Y }` in src/src/types.ts. -/
inductive Direction where
  | X
  | Y
deriving DecidableEq, Repr

/-- One crop measurement along one axis, from `type Axis` in src/src/types.ts. -/
structure Axis where
  length : Int
  offset : Int
  direction : Direction
deriving DecidableEq, Repr

/-- The four-sided crop rectangle, from `type Crop` in src/src/types.ts. -/
structure Crop where
  top : Int
  bottom : Int
  left : Int
  right : Int
deriving DecidableEq, Repr

/-- Probe result for one file, from `type VideoInfo` in src/src/types.ts. -/
structure VideoInfo where
  width : Int
  height : Int
  duration : Rat
deriving DecidableEq, Repr

/-- The typed error kinds, from `enum InternalErrorKind` in the error module. -/
inductive InternalErrorKind where
  | WrongAxis
  | MissingSamples
  | ExecutionFailed
  | GarbageReturned
  | IoError
deriving DecidableEq, Repr

/-- A thrown JavaScript exception: either a typed `InternalError` carrying an
`InternalErrorKind`, or any other (untyped) runtime exception such as a
TypeError. -/
inductive JsError where
  | internal (kind : InternalErrorKind)
  | untyped
deriving DecidableEq, Repr

/-- Embedding of `calculateCrop` (src/src/index.ts, lines 105 to 115): checks the
axis tags, then builds the crop rectangle from the two reduced axes and the
video resolution. -/
def calculateCrop (video : VideoInfo) (xAxis yAxis : Axis) : Except JsError Crop :=
  if xAxis.direction ≠ Direction.X ∨ yAxis.direction ≠ Direction.Y then
    .error (.internal .WrongAxis)
  else
    .ok { left := xAxis.offset,
          top := yAxis.offset,
          right := video.width - (xAxis.length + xAxis.offset),
          bottom := video.height - (yAxis.length + yAxis.offset) }

/-- C3: calculateCrop returns exactly the record
{left = xAxis.offset, top = yAxis.offset, right = width - (length + offset),
bottom = height - (length + offset)} whenever the axis tags match, and fails
with the typed WrongAxis error exactly when they are mismatched; it has no
other outcome. -/
theorem calculateCrop_exact (video : VideoInfo) (xAxis yAxis : Axis) :
    (xAxis.direction = Direction.X ∧ yAxis.direction = Direction.Y →
      calculateCrop video xAxis yAxis =
        .ok { left := xAxis.offset,
              top := yAxis.offset,
              right := video.width - (xAxis.length + xAxis.offset),
              bottom := video.height - (yAxis.length + yAxis.offset) }) ∧
    (¬(xAxis.direction = Direction.X ∧ yAxis.direction = Direction.Y) →
      calculateCrop video xAxis yAxis = .error (.internal .WrongAxis)) := by
  constructor
  · rintro ⟨hx, hy⟩
    simp [calculateCrop, hx, hy]
  · intro h
    rw [not_and_or] at h
    rcases h with h | h <;> simp [calculateCrop, h]

/-- Witness for C3 at a concrete input: the 1920x1080 video with a 1920-wide,
800-tall detected picture yields crop {left 0, top 140, right 0, bottom 140};
and swapped tags yield the WrongAxis error. -/
theorem calculateCrop_exact_witness :
    calculateCrop ⟨1920, 1080, 100⟩ ⟨1920, 0, Direction.X⟩ ⟨800, 140, Direction.Y⟩ =
        .ok { left := 0, top := 140, right := 1920 - (1920 + 0),
              bottom := 1080 - (800 + 140) } ∧
      calculateCrop ⟨1920, 1080, 100⟩ ⟨1920, 0, Direction.Y⟩ ⟨800, 140, Direction.Y⟩ =
        .error (.internal .WrongAxis) :=
  ⟨(calculateCrop_exact ⟨1920, 1080, 100⟩ ⟨1920, 0, Direction.X⟩ ⟨800, 140, Direction.Y⟩).1
      ⟨rfl, rfl⟩,
    (calculateCrop_exact ⟨1920, 1080, 100⟩ ⟨1920, 0, Direction.Y⟩ ⟨800, 140, Direction.Y⟩).2
      (by decide)⟩

/-- One step of the running-maximum loop in `maxLargestAxis`: on a strictly
greater length, adopt that length and offset. -/
def maxStep (result axis : Axis) : Axis :=
  if axis.length > result.length then
    { result with length := axis.length, offset := axis.offset }
  else result

/-- Embedding of `maxLargestAxis` (src/src/index.ts, lines 117 to 128): fails
with MissingSamples on the empty list, otherwise copies the first element and
scans the whole array with the running maximum `maxStep`. -/
def maxLargestAxis : List Axis → Except JsError Axis
  | [] => .error (.internal .MissingSamples)
  | first :: rest => .ok ((first :: rest).foldl maxStep first)

/-- Specification helper: the first element attaining the running strict
maximum of the lengths, starting from `acc`. -/
def firstMax (acc : Axis) : List Axis → Axis
  | [] => acc
  | a :: t => if a.length > acc.length then firstMax a t else firstMax acc t

theorem firstMax_congr (acc₁ acc₂ : Axis) (t : List Axis)
    (hl : acc₁.length = acc₂.length) (ho : acc₁.offset = acc₂.offset) :
    (firstMax acc₁ t).length = (firstMax acc₂ t).length ∧
      (firstMax acc₁ t).offset = (firstMax acc₂ t).offset := by
  induction t generalizing acc₁ acc₂ with
  | nil => exact ⟨hl, ho⟩
  | cons a t ih =>
    by_cases h : a.length > acc₁.length
    · rw [firstMax, if_pos h, firstMax, if_pos (by omega : a.length > acc₂.length)]
      exact ⟨rfl, rfl⟩
    · rw [firstMax, if_neg h, firstMax, if_neg (by omega : ¬a.length > acc₂.length)]
      exact ih acc₁ acc₂ hl ho

theorem foldl_maxStep_spec (t : List Axis) (acc : Axis) :
    (List.foldl maxStep acc t).length = (firstMax acc t).length ∧
      (List.foldl maxStep acc t).offset = (firstMax acc t).offset ∧
      (List.foldl maxStep acc t).direction = acc.direction := by
  induction t generalizing acc with
  | nil => exact ⟨rfl, rfl, rfl⟩
  | cons a t ih =>
    by_cases h : a.length > acc.length
    · have e1 : List.foldl maxStep acc (a :: t) =
          List.foldl maxStep { acc with length := a.length, offset := a.offset } t := by
        simp only [List.foldl_cons, maxStep, if_pos h]
      have e2 : firstMax acc (a :: t) = firstMax a t := by
        rw [firstMax, if_pos h]
      rcases ih { acc with length := a.length, offset := a.offset } with ⟨l1, o1, d1⟩
      rcases firstMax_congr { acc with length := a.length, offset := a.offset } a t rfl rfl
        with ⟨lc, oc⟩
      rw [e1, e2]
      exact ⟨l1.trans lc, o1.trans oc, d1⟩
    · have e1 : List.foldl maxStep acc (a :: t) = List.foldl maxStep acc t := by
        simp only [List.foldl_cons, maxStep, if_neg h]
      have e2 : firstMax acc (a :: t) = firstMax acc t := by
        rw [firstMax, if_neg h]
      rw [e1, e2]
      exact ih acc

theorem firstMax_le (acc : Axis) (t : List Axis) : acc.length ≤ (firstMax acc t).length := by
  induction t generalizing acc with
  | nil => exact le_refl _
  | cons a t ih =>
    by_cases h : a.length > acc.length
    · rw [firstMax, if_pos h]
      exact le_of_lt (lt_of_lt_of_le h (ih a))
    · rw [firstMax, if_neg h]
      exact ih acc

theorem firstMax_mem (acc : Axis) (t : List Axis) :
    firstMax acc t = acc ∨ firstMax acc t ∈ t := by
  induction t generalizing acc with
  | nil => exact Or.inl rfl
  | cons a t ih =>
    by_cases h : a.length > acc.length
    · rw [firstMax, if_pos h]
      rcases ih a with he | hm
      · exact Or.inr (by rw [he]; exact List.mem_cons_self a t)
      · exact Or.inr (List.mem_cons_of_mem a hm)
    · rw [firstMax, if_neg h]
      rcases ih acc with he | hm
      · exact Or.inl he
      · exact Or.inr (List.mem_cons_of_mem a hm)

theorem firstMax_isMax (acc : Axis) (t : List Axis) :
    ∀ x ∈ t, x.length ≤ (firstMax acc t).length := by
  induction t generalizing acc with
  | nil => intro x hx; cases hx
  | cons a t ih =>
    intro x hx
    by_cases h : a.length > acc.length
    · rw [firstMax, if_pos h]
      rcases List.mem_cons.mp hx with he | hm
      · exact he ▸ firstMax_le a t
      · exact ih a x hm
    · rw [firstMax, if_neg h]
      rcases List.mem_cons.mp hx with he | hm
      · exact he ▸ le_trans (by omega) (firstMax_le acc t)
      · exact ih acc x hm

theorem firstMax_find (acc : Axis) (t : List Axis) :
    (acc :: t).find? (fun x => x.length == (firstMax acc t).length) =
      some (firstMax acc t) := by
  induction t generalizing acc with
  | nil =>
    rw [firstMax]
    simp [List.find?]
  | cons a t ih =>
    by_cases h : a.length > acc.length
    · rw [firstMax, if_pos h]
      have hlt : acc.length < (firstMax a t).length := lt_of_lt_of_le h (firstMax_le a t)
      have hpacc : (acc.length == (firstMax a t).length) = false := by
        simp only [beq_eq_false_iff_ne, ne_eq]
        omega
      rw [List.find?_cons_of_neg _ (by simp [hpacc]), ih a]
    · rw [firstMax, if_neg h]
      by_cases heq : acc.length = (firstMax acc t).length
      · have hfirst : ∀ rest : List Axis,
            (acc :: rest).find? (fun x => x.length == (firstMax acc t).length) = some acc := by
          intro rest
          exact List.find?_cons_of_pos _ (by simp [heq])
        have hacc : firstMax acc t = acc := by
          have := ih acc
          rw [hfirst t] at this
          exact (Option.some.injEq _ _ ▸ this).symm
        rw [hfirst (a :: t), hacc]
      · have hpacc : (acc.length == (firstMax acc t).length) = false := by
          simp only [beq_eq_false_iff_ne, ne_eq]
          exact heq
        have hpa : (a.length == (firstMax acc t).length) = false := by
          simp only [beq_eq_false_iff_ne, ne_eq]
          have h1 := firstMax_le acc t
          omega
        have ht : t.find? (fun x => x.length == (firstMax acc t).length) =
            some (firstMax acc t) := by
          have := ih acc
          rw [List.find?_cons_of_neg _ (by simp [hpacc])] at this
          exact this
        rw [List.find?_cons_of_neg _ (by simp [hpacc]),
          List.find?_cons_of_neg _ (by simp [hpa]), ht]

/-- Shared characterization of `maxLargestAxis` on a non-empty same-direction
list: it succeeds with a member of the list whose length is maximal, and that
member is the first one of maximal length in list order. -/
theorem maxLargestAxis_char (l : List Axis) (d : Direction)
    (hd : ∀ a ∈ l, a.direction = d) (hne : l ≠ []) :
    ∃ m, maxLargestAxis l = .ok m ∧ m ∈ l ∧ (∀ a ∈ l, a.length ≤ m.length) ∧
      l.find? (fun x => x.length == m.length) = some m := by
  match l, hne with
  | first :: rest, _ =>
    have hfold : (first :: rest).foldl maxStep first = List.foldl maxStep first rest := by
      simp only [List.foldl_cons, maxStep, if_neg (lt_irrefl first.length)]
    rcases foldl_maxStep_spec rest first with ⟨hl, ho, hdir⟩
    have hmemOr := firstMax_mem first rest
    have hmdir : (firstMax first rest).direction = first.direction := by
      rcases hmemOr with he | hm
      · rw [he]
      · rw [hd _ (List.mem_cons_of_mem first hm), hd first (List.mem_cons_self first rest)]
    have heq : List.foldl maxStep first rest = firstMax first rest := by
      cases h1 : List.foldl maxStep first rest
      cases h2 : firstMax first rest
      simp only [h1, h2] at hl ho hdir hmdir
      simp [hl, ho, hdir, hmdir]
    refine ⟨firstMax first rest, ?_, ?_, ?_, ?_⟩
    · rw [maxLargestAxis, hfold, heq]
    · rcases hmemOr with he | hm
      · rw [he]; exact List.mem_cons_self first rest
      · exact List.mem_cons_of_mem first hm
    · intro a ha
      rcases List.mem_cons.mp ha with he | hm
      · exact he ▸ firstMax_le first rest
      · exact firstMax_isMax first rest a hm
    · exact firstMax_find first rest

/-- C1: on the empty list maxLargestAxis fails with the typed MissingSamples
error; on every non-empty list of same-axis samples it returns the sample with
the maximum length, keeping the first-seen maximum on ties (the returned
sample is the first list element whose length equals the maximum). -/
theorem maxLargestAxis_safest_crop_wins (l : List Axis) (d : Direction)
    (hd : ∀ a ∈ l, a.direction = d) (hne : l ≠ []) :
    maxLargestAxis [] = .error (.internal .MissingSamples) ∧
      ∃ m, maxLargestAxis l = .ok m ∧ m ∈ l ∧ (∀ a ∈ l, a.length ≤ m.length) ∧
        l.find? (fun x => x.length == m.length) = some m :=
  ⟨rfl, maxLargestAxis_char l d hd hne⟩

/-- Witness for C1 at a concrete input: a three-sample X-axis list whose
maximum length 12 first occurs at the second sample. -/
theorem maxLargestAxis_safest_crop_wins_witness :
    maxLargestAxis [] = .error (.internal .MissingSamples) ∧
      ∃ m, maxLargestAxis
            ([⟨10, 4, Direction.X⟩, ⟨12, 3, Direction.X⟩, ⟨12, 7, Direction.X⟩] :
              List Axis) = .ok m ∧
        m ∈ ([⟨10, 4, Direction.X⟩, ⟨12, 3, Direction.X⟩, ⟨12, 7, Direction.X⟩] :
              List Axis) ∧
        (∀ a ∈ ([⟨10, 4, Direction.X⟩, ⟨12, 3, Direction.X⟩, ⟨12, 7, Direction.X⟩] :
              List Axis),
          a.length ≤ m.length) ∧
        List.find? (fun x => x.length == m.length)
          ([⟨10, 4, Direction.X⟩, ⟨12, 3, Direction.X⟩, ⟨12, 7, Direction.X⟩] :
            List Axis) = some m :=
  maxLargestAxis_safest_crop_wins
    [⟨10, 4, Direction.X⟩, ⟨12, 3, Direction.X⟩, ⟨12, 7, Direction.X⟩]
    Direction.X (by decide) (by decide)

/-- C9: the safest-crop-wins reducer is order-independent up to the documented
tie-break: across any permutation of a non-empty same-axis list, the returned
length is the same maximum; each run returns its first-seen maximal sample;
and when every maximal-length sample carries the same offset the whole
returned axis coincides across the two orders. -/
theorem maxLargestAxis_perm_invariant (l lp : List Axis) (d : Direction)
    (hd : ∀ a ∈ l, a.direction = d) (hp : l.Perm lp) (hne : l ≠ []) :
    ∃ m mp, maxLargestAxis l = .ok m ∧ maxLargestAxis lp = .ok mp ∧
      m.length = mp.length ∧
      l.find? (fun x => x.length == m.length) = some m ∧
      lp.find? (fun x => x.length == mp.length) = some mp ∧
      ((∀ a ∈ l, a.length = m.length → a.offset = m.offset) → m = mp) := by
  have hdp : ∀ a ∈ lp, a.direction = d := fun a ha => hd a (hp.mem_iff.mpr ha)
  have hnep : lp ≠ [] := by
    intro h
    apply hne
    have hlen := hp.length_eq
    rw [h] at hlen
    exact List.eq_nil_of_length_eq_zero hlen
  rcases maxLargestAxis_char l d hd hne with ⟨m, hm, hmem, hmax, hfind⟩
  rcases maxLargestAxis_char lp d hdp hnep with ⟨mp, hmp, hmemp, hmaxp, hfindp⟩
  have hlen : m.length = mp.length :=
    le_antisymm (hmaxp m (hp.mem_iff.mp hmem)) (hmax mp (hp.mem_iff.mpr hmemp))
  refine ⟨m, mp, hm, hmp, hlen, hfind, hfindp, ?_⟩
  intro hoff
  have h1 : mp.offset = m.offset := hoff mp (hp.mem_iff.mpr hmemp) hlen.symm
  have h2 : m.direction = mp.direction := by rw [hd m hmem, hdp mp hmemp]
  cases m
  cases mp
  simp_all

/-- Witness for C9 at a concrete input: swapping the first two samples of a
three-sample list whose maximal-length samples all carry offset 2 leaves the
reduced axis unchanged. -/
theorem maxLargestAxis_perm_invariant_witness :
    ∃ m mp,
      maxLargestAxis ([⟨5, 1, Direction.X⟩, ⟨9, 2, Direction.X⟩, ⟨9, 2, Direction.X⟩] :
          List Axis) = .ok m ∧
      maxLargestAxis ([⟨9, 2, Direction.X⟩, ⟨5, 1, Direction.X⟩, ⟨9, 2, Direction.X⟩] :
          List Axis) = .ok mp ∧
      m.length = mp.length ∧
      List.find? (fun x => x.length == m.length)
        ([⟨5, 1, Direction.X⟩, ⟨9, 2, Direction.X⟩, ⟨9, 2, Direction.X⟩] :
          List Axis) = some m ∧
      List.find? (fun x => x.length == mp.length)
        ([⟨9, 2, Direction.X⟩, ⟨5, 1, Direction.X⟩, ⟨9, 2, Direction.X⟩] :
          List Axis) = some mp ∧
      ((∀ a ∈ ([⟨5, 1, Direction.X⟩, ⟨9, 2, Direction.X⟩, ⟨9, 2, Direction.X⟩] :
          List Axis), a.length = m.length → a.offset = m.offset) → m = mp) :=
  maxLargestAxis_perm_invariant
    [⟨5, 1, Direction.X⟩, ⟨9, 2, Direction.X⟩, ⟨9, 2, Direction.X⟩]
    [⟨9, 2, Direction.X⟩, ⟨5, 1, Direction.X⟩, ⟨9, 2, Direction.X⟩]
    Direction.X (by decide)
    (List.Perm.swap (⟨9, 2, Direction.X⟩ : Axis) (⟨5, 1, Direction.X⟩ : Axis)
      ([⟨9, 2, Direction.X⟩] : List Axis))
    (by decide)

/-- The comparator passed to the in-place array sort in `filterAxis`
(`(a, b) => a.length - b.length`): ascending by length.  The JavaScript sort
is stable; `List.insertionSort` with this relation produces the same list. -/
def lenLE (a b : Axis) : Prop := a.length ≤ b.length

instance : DecidableRel lenLE := fun a b => Int.decLe a.length b.length

instance : IsTotal Axis lenLE := ⟨fun a b => Int.le_total a.length b.length⟩

instance : IsTrans Axis lenLE := ⟨fun _ _ _ hab hbc => Int.le_trans hab hbc⟩

instance : IsRefl Axis lenLE := ⟨fun a => Int.le_refl a.length⟩

/-- Embedding of `quantileOfAxis` (src/src/index.ts, lines 130 to 133): reads
the length of the element at index floor(n times percentage) of the sorted
array.  When the index is out of range the JavaScript code dereferences
`undefined` and crashes with an untyped TypeError, modelled as
`JsError.untyped`. -/
def quantileOfAxis (sortedAxis : List Axis) (percentage : Rat) : Except JsError Int :=
  match sortedAxis[(⌊(sortedAxis.length : Rat) * percentage⌋).toNat]? with
  | some axis => .ok axis.length
  | none => .error .untyped

/-- The retention predicate of `filterAxis`: length within
[q1 - 1.5 (q3 - q1), q3 + 1.5 (q3 - q1)] inclusive. -/
def inIqrBounds (q1 q3 : Int) (v : Axis) : Bool :=
  let range := q3 - q1
  let lowerBound : Rat := (q1 : Rat) - 3 / 2 * (range : Rat)
  let upperBound : Rat := (q3 : Rat) + 3 / 2 * (range : Rat)
  decide (lowerBound ≤ (v.length : Rat) ∧ (v.length : Rat) ≤ upperBound)

/-- Embedding of `filterAxis` (src/src/index.ts, lines 135 to 150): sort by
length ascending, take the quartiles at floor(n/4) and floor(3n/4), and keep
every sample whose length lies within 1.5 interquartile ranges of them. -/
def filterAxis (axis : List Axis) : Except JsError (List Axis) :=
  let sorted := List.insertionSort lenLE axis
  match quantileOfAxis sorted (1 / 4) with
  | .error e => .error e
  | .ok q1 =>
    match quantileOfAxis sorted (3 / 4) with
    | .error e => .error e
    | .ok q3 => .ok (sorted.filter (inIqrBounds q1 q3))

theorem quantile_index_lt (n : Nat) (hn : 1 ≤ n) (p : Rat) (hp0 : 0 ≤ p) (hp1 : p < 1) :
    (⌊(n : Rat) * p⌋).toNat < n := by
  have hnpos : (0 : Rat) < (n : Rat) := by exact_mod_cast hn
  have h0 : (0 : Rat) ≤ (n : Rat) * p := mul_nonneg (le_of_lt hnpos) hp0
  have hlt : (n : Rat) * p < (n : Rat) := by
    calc (n : Rat) * p < (n : Rat) * 1 := mul_lt_mul_of_pos_left hp1 hnpos
    _ = (n : Rat) := mul_one _
  have hfl : ⌊(n : Rat) * p⌋ < (n : Int) := by
    rw [Int.floor_lt]
    exact_mod_cast hlt
  have hfl0 : (0 : Int) ≤ ⌊(n : Rat) * p⌋ := Int.floor_nonneg.mpr h0
  omega

theorem quantileOfAxis_ok (sorted : List Axis) (hne : sorted ≠ []) (p : Rat)
    (hp0 : 0 ≤ p) (hp1 : p < 1) :
    ∃ i : Fin sorted.length, (⌊(sorted.length : Rat) * p⌋).toNat = (i : Nat) ∧
      quantileOfAxis sorted p = .ok (sorted.get i).length := by
  have hn : 1 ≤ sorted.length := List.length_pos.mpr hne
  have hidx := quantile_index_lt sorted.length hn p hp0 hp1
  refine ⟨⟨_, hidx⟩, rfl, ?_⟩
  unfold quantileOfAxis
  rw [List.getElem?_eq_getElem hidx]
  simp

/-- Shared characterization of `filterAxis` on a non-empty list: both quartile
reads succeed, the first quartile is at most the third, and the output is the
sorted input filtered by the interquartile-range predicate. -/
theorem filterAxis_ok (l : List Axis) (hne : l ≠ []) :
    ∃ (i25 i75 : Fin (List.insertionSort lenLE l).length) (q1 q3 : Int),
      q1 = ((List.insertionSort lenLE l).get i25).length ∧
      q3 = ((List.insertionSort lenLE l).get i75).length ∧
      quantileOfAxis (List.insertionSort lenLE l) (1 / 4) = .ok q1 ∧
      quantileOfAxis (List.insertionSort lenLE l) (3 / 4) = .ok q3 ∧
      q1 ≤ q3 ∧
      filterAxis l = .ok ((List.insertionSort lenLE l).filter (inIqrBounds q1 q3)) := by
  have hsne : List.insertionSort lenLE l ≠ [] := by
    intro h
    apply hne
    have hlen := (List.perm_insertionSort lenLE l).length_eq
    rw [h] at hlen
    exact List.eq_nil_of_length_eq_zero hlen.symm
  obtain ⟨i25, hi25e, hq1⟩ := quantileOfAxis_ok _ hsne (1 / 4) (by norm_num) (by norm_num)
  obtain ⟨i75, hi75e, hq3⟩ := quantileOfAxis_ok _ hsne (3 / 4) (by norm_num) (by norm_num)
  have hle : i25 ≤ i75 := by
    rw [Fin.le_def, ← hi25e, ← hi75e]
    have h1 : ⌊((List.insertionSort lenLE l).length : Rat) * (1 / 4)⌋ ≤
        ⌊((List.insertionSort lenLE l).length : Rat) * (3 / 4)⌋ := by
      apply Int.floor_le_floor
      apply mul_le_mul_of_nonneg_left (by norm_num)
      positivity
    omega
  have hsorted : (List.insertionSort lenLE l).Sorted lenLE :=
    List.sorted_insertionSort lenLE l
  have hq1q3 : ((List.insertionSort lenLE l).get i25).length ≤
      ((List.insertionSort lenLE l).get i75).length :=
    hsorted.rel_get_of_le hle
  refine ⟨i25, i75, _, _, rfl, rfl, hq1, hq3, hq1q3, ?_⟩
  simp only [filterAxis, hq1, hq3]

/-- C2: on every non-empty list, filterAxis succeeds, its output is a subset
of its input, and every retained sample has length within
[Q1 - 1.5 IQR, Q3 + 1.5 IQR] inclusive, the quartiles being read by
quantileOfAxis at floor(n/4) and floor(3n/4) of the input sorted ascending by
length. -/
theorem filterAxis_iqr_bounds (l : List Axis) (hne : l ≠ []) :
    ∃ out q1 q3, filterAxis l = .ok out ∧
      quantileOfAxis (List.insertionSort lenLE l) (1 / 4) = .ok q1 ∧
      quantileOfAxis (List.insertionSort lenLE l) (3 / 4) = .ok q3 ∧
      (∀ a ∈ out, a ∈ l) ∧
      (∀ a ∈ out,
        (q1 : Rat) - 3 / 2 * (((q3 - q1 : Int) : Rat)) ≤ (a.length : Rat) ∧
        (a.length : Rat) ≤ (q3 : Rat) + 3 / 2 * (((q3 - q1 : Int) : Rat))) := by
  obtain ⟨i25, i75, q1, q3, _, _, hq1, hq3, _, hfa⟩ := filterAxis_ok l hne
  refine ⟨_, q1, q3, hfa, hq1, hq3, ?_, ?_⟩
  · intro a ha
    exact (List.perm_insertionSort lenLE l).mem_iff.mp (List.mem_of_mem_filter ha)
  · intro a ha
    have hpred := List.of_mem_filter ha
    simpa [inIqrBounds] using hpred

/-- Witness for C2 at a concrete input: a four-sample X-axis list; the sorted
lengths are 10, 11, 12, 100, the quartiles are 11 and 100, and every sample is
retained. -/
theorem filterAxis_iqr_bounds_witness :
    ∃ out q1 q3,
      filterAxis ([⟨10, 0, Direction.X⟩, ⟨12, 0, Direction.X⟩, ⟨11, 0, Direction.X⟩,
          ⟨100, 5, Direction.X⟩] : List Axis) = .ok out ∧
      quantileOfAxis (List.insertionSort lenLE
        ([⟨10, 0, Direction.X⟩, ⟨12, 0, Direction.X⟩, ⟨11, 0, Direction.X⟩,
          ⟨100, 5, Direction.X⟩] : List Axis)) (1 / 4) = .ok q1 ∧
      quantileOfAxis (List.insertionSort lenLE
        ([⟨10, 0, Direction.X⟩, ⟨12, 0, Direction.X⟩, ⟨11, 0, Direction.X⟩,
          ⟨100, 5, Direction.X⟩] : List Axis)) (3 / 4) = .ok q3 ∧
      (∀ a ∈ out, a ∈ ([⟨10, 0, Direction.X⟩, ⟨12, 0, Direction.X⟩, ⟨11, 0, Direction.X⟩,
          ⟨100, 5, Direction.X⟩] : List Axis)) ∧
      (∀ a ∈ out,
        (q1 : Rat) - 3 / 2 * (((q3 - q1 : Int) : Rat)) ≤ (a.length : Rat) ∧
        (a.length : Rat) ≤ (q3 : Rat) + 3 / 2 * (((q3 - q1 : Int) : Rat))) :=
  filterAxis_iqr_bounds
    ([⟨10, 0, Direction.X⟩, ⟨12, 0, Direction.X⟩, ⟨11, 0, Direction.X⟩,
      ⟨100, 5, Direction.X⟩] : List Axis) (by decide)

/-- C5 counterexample: called on the empty collection, filterAxis fails with
the untyped TypeError of dereferencing an out-of-range array element, which is
not the typed MissingSamples error the claim states. -/
theorem filterAxis_empty_counterexample :
    filterAxis ([] : List Axis) = .error .untyped ∧
      (Except.error JsError.untyped : Except JsError (List Axis)) ≠
        .error (.internal .MissingSamples) := by
  refine ⟨rfl, ?_⟩
  intro h
  simp at h

/-- C5 amended: called on the empty collection, filterAxis fails, but with the
untyped error of reading the length of an undefined array element inside
quantileOfAxis, not with the typed MissingSamples error. -/
theorem filterAxis_empty_untyped : filterAxis ([] : List Axis) = .error .untyped := rfl

theorem maxLargestAxis_of_ne_nil (l : List Axis) (hne : l ≠ []) :
    ∃ m, maxLargestAxis l = .ok m := by
  match l, hne with
  | a :: t, _ => exact ⟨_, rfl⟩

/-- C10: on every non-empty list, filterAxis succeeds with a non-empty output
(the sample whose length is the first quartile always passes the bounds), so
maxLargestAxis applied to the filtered output never reaches its
MissingSamples branch. -/
theorem filterAxis_nonempty_reducer_total (l : List Axis) (hne : l ≠ []) :
    ∃ out, filterAxis l = .ok out ∧ out ≠ [] ∧ ∃ m, maxLargestAxis out = .ok m := by
  obtain ⟨i25, i75, q1, q3, he1, he2, hq1, hq3, hq13, hfa⟩ := filterAxis_ok l hne
  have hpred : inIqrBounds q1 q3 ((List.insertionSort lenLE l).get i25) = true := by
    simp only [inIqrBounds, decide_eq_true_eq]
    rw [← he1]
    have hc : (q1 : Rat) ≤ (q3 : Rat) := by exact_mod_cast hq13
    constructor
    · push_cast
      linarith
    · push_cast
      linarith
  have hmem : (List.insertionSort lenLE l).get i25 ∈
      (List.insertionSort lenLE l).filter (inIqrBounds q1 q3) :=
    List.mem_filter.mpr ⟨List.get_mem _ i25.1 i25.2, hpred⟩
  have hne2 : (List.insertionSort lenLE l).filter (inIqrBounds q1 q3) ≠ [] := by
    intro h
    rw [h] at hmem
    cases hmem
  exact ⟨_, hfa, hne2, maxLargestAxis_of_ne_nil _ hne2⟩

/-- Witness for C10 at a concrete input: the singleton X-axis list passes the
filter unchanged and reduces successfully. -/
theorem filterAxis_nonempty_reducer_total_witness :
    ∃ out, filterAxis ([⟨10, 0, Direction.X⟩] : List Axis) = .ok out ∧ out ≠ [] ∧
      ∃ m, maxLargestAxis out = .ok m :=
  filterAxis_nonempty_reducer_total ([⟨10, 0, Direction.X⟩] : List Axis) (by decide)

/-- One sampling window, the element type produced by
`calculateStartAndDuration`. -/
structure Window where
  start : Int
  duration : Int
deriving DecidableEq, Repr

/-- Embedding of `calculateStartAndDuration` (src/src/index.ts, lines 213 to
232): partLength is floor(duration / parts); the loop pushes, for each i below
parts, a window starting at i times partLength whose duration is the minimum
of (i + 1) times partLength minus the start and the per-part cap. -/
def calculateStartAndDuration (filmDurationInSecs : Rat) (parts : Nat)
    (maxDurationPerPartInSecs : Int) : List Window :=
  let partLength := ⌊filmDurationInSecs / (parts : Rat)⌋
  (List.range parts).foldl
    (fun (result : List Window) (i : Nat) =>
      let start := (i : Int) * partLength
      result ++ [{ start := start,
                   duration := min (((i : Int) + 1) * partLength - start)
                     maxDurationPerPartInSecs }])
    []

theorem foldl_append_singleton {α β : Type} (f : α → β) (l : List α) (init : List β) :
    l.foldl (fun r i => r ++ [f i]) init = init ++ l.map f := by
  induction l generalizing init with
  | nil => simp
  | cons a t ih => simp [ih]

/-- C4: for every duration D, parts count P of at least one and cap C, the
scheduler returns exactly P windows, window i starting at i times
floor(D / P) with duration min(floor(D / P), C) for every i below P (the
final window included). -/
theorem calculateStartAndDuration_partition (D : Rat) (P : Nat) (C : Int) (hP : 1 ≤ P) :
    calculateStartAndDuration D P C =
      (List.range P).map (fun (i : Nat) =>
        { start := (i : Int) * ⌊D / (P : Rat)⌋,
          duration := min ⌊D / (P : Rat)⌋ C }) ∧
    (calculateStartAndDuration D P C).length = P := by
  have key : calculateStartAndDuration D P C =
      (List.range P).map (fun (i : Nat) =>
        ({ start := (i : Int) * ⌊D / (P : Rat)⌋,
           duration := min (((i : Int) + 1) * ⌊D / (P : Rat)⌋ - (i : Int) * ⌊D / (P : Rat)⌋)
             C } : Window)) := by
    unfold calculateStartAndDuration
    rw [foldl_append_singleton (fun i : Nat =>
      ({ start := (i : Int) * ⌊D / (P : Rat)⌋,
         duration := min (((i : Int) + 1) * ⌊D / (P : Rat)⌋ - (i : Int) * ⌊D / (P : Rat)⌋)
           C } : Window)) (List.range P) []]
    simp
  constructor
  · rw [key]
    apply List.map_congr_left
    intro i _
    have harith : ((i : Int) + 1) * ⌊D / (P : Rat)⌋ - (i : Int) * ⌊D / (P : Rat)⌋ =
        ⌊D / (P : Rat)⌋ := by ring
    rw [harith]
  · rw [key]
    simp

/-- Witness for C4 at a concrete input: a 600 second film in 6 parts capped at
60 seconds per part yields 6 windows starting every 100 seconds, each 60
seconds long. -/
theorem calculateStartAndDuration_partition_witness :
    calculateStartAndDuration 600 6 60 =
      (List.range 6).map (fun (i : Nat) =>
        { start := (i : Int) * ⌊(600 : Rat) / ((6 : Nat) : Rat)⌋,
          duration := min ⌊(600 : Rat) / ((6 : Nat) : Rat)⌋ 60 }) ∧
    (calculateStartAndDuration 600 6 60).length = 6 :=
  calculateStartAndDuration_partition 600 6 60 (by decide)

/-- Embedding of `cropFromMultiAxis` (src/src/index.ts, lines 234 to 263):
split the sample pool by axis tag, optionally outlier-filter each axis, reduce
each axis with maxLargestAxis, then compute the crop rectangle. -/
def cropFromMultiAxis (videoInfo : VideoInfo) (samples : List Axis) (filter : Bool) :
    Except JsError Crop :=
  let xAxis := samples.filter (fun s => decide (s.direction = Direction.X))
  let yAxis := samples.filter (fun s => decide (s.direction = Direction.Y))
  match (if filter then filterAxis xAxis else .ok xAxis) with
  | .error e => .error e
  | .ok xFiltered =>
    match (if filter then filterAxis yAxis else .ok yAxis) with
    | .error e => .error e
    | .ok yFiltered =>
      match maxLargestAxis xFiltered with
      | .error e => .error e
      | .ok xMax =>
        match maxLargestAxis yFiltered with
        | .error e => .error e
        | .ok yMax => calculateCrop videoInfo xMax yMax

instance {ε α : Type} [DecidableEq ε] [DecidableEq α] : DecidableEq (Except ε α)
  | .ok x, .ok y => decidable_of_iff (x = y) (by simp)
  | .ok _, .error _ => isFalse (by simp)
  | .error _, .ok _ => isFalse (by simp)
  | .error e, .error f => decidable_of_iff (e = f) (by simp)

unseal Rat.mul Rat.inv Rat.add Rat.sub Nat.gcd in
/-- C8 counterexample: the full aggregation pipeline applied to a 100 by 100
video whose detection lines all parse to zero-length samples (the detection
line crop=0:0:0:0 is parseable) produces the crop {left 0, right 100, top 0,
bottom 100}, and its horizontal sides sum to the full width, so the strict
invariant left + right < width fails. -/
theorem crop_invariant_counterexample :
    cropFromMultiAxis ⟨100, 100, 50⟩
        ([⟨0, 0, Direction.X⟩, ⟨0, 0, Direction.Y⟩] : List Axis) true =
      .ok { top := 0, bottom := 100, left := 0, right := 100 } ∧
      ¬((0 : Int) + (100 : Int) < (100 : Int)) := by
  exact ⟨by decide, by decide⟩

/-- C8 amended: for axes with non-negative lengths and offsets and matching
tags, the pipeline invariant holds in its non-strict form,
left + right = width - xLength ≤ width and top + bottom = height - yLength ≤
height, and it is strict exactly when the reduced axis length is positive. -/
theorem crop_sum_bound (video : VideoInfo) (xAxis yAxis : Axis)
    (hx : xAxis.direction = Direction.X) (hy : yAxis.direction = Direction.Y)
    (hlx : 0 ≤ xAxis.length) (hly : 0 ≤ yAxis.length) :
    ∃ c, calculateCrop video xAxis yAxis = .ok c ∧
      c.left + c.right = video.width - xAxis.length ∧
      c.top + c.bottom = video.height - yAxis.length ∧
      c.left + c.right ≤ video.width ∧
      c.top + c.bottom ≤ video.height ∧
      (0 < xAxis.length → c.left + c.right < video.width) ∧
      (0 < yAxis.length → c.top + c.bottom < video.height) := by
  have hc : calculateCrop video xAxis yAxis =
      .ok { left := xAxis.offset,
            top := yAxis.offset,
            right := video.width - (xAxis.length + xAxis.offset),
            bottom := video.height - (yAxis.length + yAxis.offset) } := by
    simp [calculateCrop, hx, hy]
  refine ⟨_, hc, ?_, ?_, ?_, ?_, ?_, ?_⟩ <;> simp <;> omega

/-- Witness for C8 amended at a concrete input: the 1920x1080 video with
positive reduced lengths 1920 and 800 satisfies the strict inequalities. -/
theorem crop_sum_bound_witness :
    ∃ c, calculateCrop ⟨1920, 1080, 100⟩ ⟨1920, 0, Direction.X⟩ ⟨800, 140, Direction.Y⟩ =
        .ok c ∧
      c.left + c.right = 1920 - 1920 ∧
      c.top + c.bottom = 1080 - 800 ∧
      c.left + c.right ≤ 1920 ∧
      c.top + c.bottom ≤ 1080 ∧
      ((0 : Int) < 1920 → c.left + c.right < 1920) ∧
      ((0 : Int) < 800 → c.top + c.bottom < 1080) :=
  crop_sum_bound ⟨1920, 1080, 100⟩ ⟨1920, 0, Direction.X⟩ ⟨800, 140, Direction.Y⟩
    rfl rfl (by decide) (by decide)

/-- The key-value view, in object-literal insertion order, of the Crop record
built by calculateCrop; the for-in loop of writeCropToFileMetadata visits the
keys in exactly this order. -/
def cropEntries (crop : Crop) : List (String × Int) :=
  [("left", crop.left), ("top", crop.top), ("right", crop.right), ("bottom", crop.bottom)]

/-- The set arguments accumulated by the loop of writeCropToFileMetadata
(src/src/index.ts, lines 320 to 332): one pixel-crop property per non-zero
(truthy) side, in insertion order; the `changed` flag of the source is true
iff this list is non-empty. -/
def cropSetArgs (crop : Crop) : List (String × Int) :=
  (cropEntries crop).filter (fun kv => decide (kv.2 ≠ 0))

/-- Rendering of one set argument exactly as appended to the command string. -/
def renderSetArg (kv : String × Int) : String :=
  "--set pixel-crop-" ++ kv.1 ++ "=" ++ toString kv.2 ++ " "

/-- The full mkvpropedit argument string built by writeCropToFileMetadata: the
path, the selector of the first video track, then one rendered set argument
per non-zero side. -/
def renderCommand (path : String) (crop : Crop) : String :=
  (cropSetArgs crop).foldl (fun cmd kv => cmd ++ renderSetArg kv)
    (path ++ " --edit track:v1 ")

/-- Observable outcome of one writeCropToFileMetadata call: the log lines
pushed to the per-file buffer, and the mkvpropedit command executed, if any. -/
structure WriteOutcome where
  logs : List String
  executedCommand : Option String
deriving DecidableEq, Repr

/-- Embedding of writeCropToFileMetadata (src/src/index.ts, lines 314 to 362):
when every side is zero the write is skipped with a log line and no
invocation; under dryrun the would-be command is only rendered into the log;
otherwise mkvpropedit is executed with the built command. -/
def writeCropToFileMetadata (path : String) (crop : Crop) (dryrun : Bool) : WriteOutcome :=
  if cropSetArgs crop = [] then
    { logs := ["Skipping write as crop is 0."], executedCommand := none }
  else if dryrun then
    { logs :=
        ["Dryrun enabled. No metadata will be overwritten. Following would have been executed:",
          "mkvpropedit " ++ renderCommand path crop],
      executedCommand := none }
  else
    { logs := ["Write success!"], executedCommand := some (renderCommand path crop) }

theorem foldl_append_renderSetArg (l : List (String × Int)) (init : String) :
    ∃ rest, l.foldl (fun cmd kv => cmd ++ renderSetArg kv) init = init ++ rest := by
  induction l generalizing init with
  | nil => exact ⟨"", (String.append_empty init).symm⟩
  | cons a t ih =>
    rcases ih (init ++ renderSetArg a) with ⟨rest, hrest⟩
    exact ⟨renderSetArg a ++ rest, by rw [List.foldl_cons, hrest, String.append_assoc]⟩

theorem cropSetArgs_eq_nil_iff (crop : Crop) :
    cropSetArgs crop = [] ↔
      crop.left = 0 ∧ crop.top = 0 ∧ crop.right = 0 ∧ crop.bottom = 0 := by
  simp [cropSetArgs, cropEntries, List.filter_eq_nil_iff]

/-- C6: the metadata write executes mkvpropedit exactly when not under dryrun
and some side is non-zero; the built command carries exactly the non-zero
sides as pixel-crop properties; the all-zero crop only logs a skip message;
and under dryrun the command is only rendered into the log, never executed. -/
theorem writeCrop_invocation (path : String) (crop : Crop) (dryrun : Bool) :
    (∀ side value, (side, value) ∈ cropSetArgs crop ↔
      ((side, value) ∈ cropEntries crop ∧ value ≠ 0)) ∧
    (crop.left = 0 ∧ crop.top = 0 ∧ crop.right = 0 ∧ crop.bottom = 0 →
      writeCropToFileMetadata path crop dryrun =
        { logs := ["Skipping write as crop is 0."], executedCommand := none }) ∧
    (dryrun = true → (writeCropToFileMetadata path crop dryrun).executedCommand = none) ∧
    (dryrun = false →
      ((writeCropToFileMetadata path crop dryrun).executedCommand ≠ none ↔
        ¬(crop.left = 0 ∧ crop.top = 0 ∧ crop.right = 0 ∧ crop.bottom = 0))) ∧
    (dryrun = true →
      ¬(crop.left = 0 ∧ crop.top = 0 ∧ crop.right = 0 ∧ crop.bottom = 0) →
      ("mkvpropedit " ++ renderCommand path crop) ∈
        (writeCropToFileMetadata path crop dryrun).logs) ∧
    (∃ rest, renderCommand path crop = (path ++ " --edit track:v1 ") ++ rest) := by
  refine ⟨?_, ?_, ?_, ?_, ?_, ?_⟩
  · intro side value
    simp [cropSetArgs, List.mem_filter]
  · intro hz
    rw [writeCropToFileMetadata, if_pos ((cropSetArgs_eq_nil_iff crop).mpr hz)]
  · intro hd
    subst hd
    rw [writeCropToFileMetadata]
    by_cases hz : cropSetArgs crop = []
    · rw [if_pos hz]
    · rw [if_neg hz, if_pos rfl]
  · intro hd
    subst hd
    rw [writeCropToFileMetadata]
    by_cases hz : cropSetArgs crop = []
    · rw [if_pos hz]
      simp [(cropSetArgs_eq_nil_iff crop).mp hz]
    · rw [if_neg hz, if_neg Bool.false_ne_true]
      have hnz : ¬(crop.left = 0 ∧ crop.top = 0 ∧ crop.right = 0 ∧ crop.bottom = 0) :=
        fun h => hz ((cropSetArgs_eq_nil_iff crop).mpr h)
      simp [hnz]
  · intro hd hnz
    subst hd
    rw [writeCropToFileMetadata,
      if_neg (fun h => hnz ((cropSetArgs_eq_nil_iff crop).mp h)), if_pos rfl]
    simp
  · exact foldl_append_renderSetArg (cropSetArgs crop) (path ++ " --edit track:v1 ")

/-- Witness for C6 at concrete inputs: a {top 140, bottom 140} crop includes
exactly the top entry among (top, 140) checks, executes when not under
dryrun, stays unexecuted under dryrun with the command rendered in the log,
and the zero crop is skipped. -/
theorem writeCrop_invocation_witness :
    (("top", (140 : Int)) ∈ cropSetArgs { top := 140, bottom := 140, left := 0, right := 0 } ↔
      (("top", (140 : Int)) ∈ cropEntries { top := 140, bottom := 140, left := 0, right := 0 } ∧
        (140 : Int) ≠ 0)) ∧
    writeCropToFileMetadata "b.mkv" { top := 0, bottom := 0, left := 0, right := 0 } false =
      { logs := ["Skipping write as crop is 0."], executedCommand := none } ∧
    (writeCropToFileMetadata "a.mkv" { top := 140, bottom := 140, left := 0, right := 0 }
      true).executedCommand = none ∧
    ((writeCropToFileMetadata "a.mkv" { top := 140, bottom := 140, left := 0, right := 0 }
        false).executedCommand ≠ none ↔
      ¬((0 : Int) = 0 ∧ (140 : Int) = 0 ∧ (0 : Int) = 0 ∧ (140 : Int) = 0)) ∧
    ("mkvpropedit " ++
        renderCommand "a.mkv" { top := 140, bottom := 140, left := 0, right := 0 }) ∈
      (writeCropToFileMetadata "a.mkv" { top := 140, bottom := 140, left := 0, right := 0 }
        true).logs :=
  ⟨(writeCrop_invocation "a.mkv" { top := 140, bottom := 140, left := 0, right := 0 }
      false).1 "top" 140,
    (writeCrop_invocation "b.mkv" { top := 0, bottom := 0, left := 0, right := 0 }
      false).2.1 (by decide),
    (writeCrop_invocation "a.mkv" { top := 140, bottom := 140, left := 0, right := 0 }
      true).2.2.1 rfl,
    (writeCrop_invocation "a.mkv" { top := 140, bottom := 140, left := 0, right := 0 }
      false).2.2.2.1 rfl,
    (writeCrop_invocation "a.mkv" { top := 140, bottom := 140, left := 0, right := 0 }
      true).2.2.2.2.1 rfl (by decide)⟩

/-- Settled outcome of the batch-loop body around one cropFile call
(src/src/index.ts, lines 501 to 520): whether the buffered log was flushed,
which typed error was reported, and which exception was rethrown out of the
per-file promise, if any. -/
structure SettledFile where
  flushedLog : Bool
  reported : Option InternalErrorKind
  rejected : Option JsError
deriving DecidableEq, Repr

/-- Embedding of the try-catch around cropFile in the batch loop: the buffer
is flushed on every path; a typed InternalError is printed and swallowed; any
other exception is rethrown, rejecting the promise of that file. -/
def settleFile (outcome : Except JsError Unit) : SettledFile :=
  match outcome with
  | .ok _ => { flushedLog := true, reported := none, rejected := none }
  | .error (.internal k) => { flushedLog := true, reported := some k, rejected := none }
  | .error .untyped => { flushedLog := true, reported := none, rejected := some .untyped }

/-- Embedding of the batch orchestration (src/src/index.ts, lines 500 to 527):
Promise.allSettled waits for every per-file promise, so every file settles,
and afterwards errorAndExit fires iff some settled result was rejected.  The
per-file pipeline outcomes are taken as input, since they depend on external
tools. -/
def runBatch (outcomes : List (Except JsError Unit)) : List SettledFile × Bool :=
  let settled := outcomes.map settleFile
  (settled, settled.any (fun s => s.rejected.isSome))

/-- C7: every file of the batch settles (one result per input, each with its
log flushed); a typed internal error in the pipeline of file i is reported
there and rejects nothing, so the remaining files still appear in the settled
results; and the batch aborts with a non-zero exit iff some file threw an
untyped (non-InternalError) exception. -/
theorem batch_error_isolation (outcomes : List (Except JsError Unit)) :
    (runBatch outcomes).1.length = outcomes.length ∧
    (∀ s ∈ (runBatch outcomes).1, s.flushedLog = true) ∧
    (∀ (i : Nat) (kind : InternalErrorKind),
      outcomes[i]? = some (Except.error (JsError.internal kind)) →
      (runBatch outcomes).1[i]? =
        some { flushedLog := true, reported := some kind, rejected := none }) ∧
    ((runBatch outcomes).2 = true ↔ Except.error JsError.untyped ∈ outcomes) := by
  refine ⟨?_, ?_, ?_, ?_⟩
  · simp [runBatch]
  · intro s hs
    simp only [runBatch, List.mem_map] at hs
    rcases hs with ⟨o, _, rfl⟩
    match o with
    | .ok _ => rfl
    | .error (.internal k) => rfl
    | .error .untyped => rfl
  · intro i kind hi
    simp only [runBatch, List.getElem?_map, hi, Option.map_some]
    rfl
  · simp only [runBatch, List.any_eq_true]
    constructor
    · rintro ⟨s, hs, hrej⟩
      rcases List.mem_map.mp hs with ⟨o, ho, rfl⟩
      match o, ho, hrej with
      | .error .untyped, ho, _ => exact ho
    · intro hmem
      exact ⟨settleFile (.error .untyped), List.mem_map.mpr ⟨_, hmem, rfl⟩, rfl⟩

/-- Witness for C7 at a concrete input: a three-file batch whose middle file
fails with the typed ExecutionFailed error settles all three files, reports
the error at index one, and does not abort. -/
theorem batch_error_isolation_witness :
    (runBatch [.ok (), .error (.internal .ExecutionFailed), .ok ()]).1.length =
      ([.ok (), .error (.internal .ExecutionFailed), .ok ()] :
        List (Except JsError Unit)).length ∧
    (runBatch [.ok (), .error (.internal .ExecutionFailed), .ok ()]).1[1]? =
      some { flushedLog := true, reported := some .ExecutionFailed, rejected := none } ∧
    ((runBatch [.ok (), .error (.internal .ExecutionFailed), .ok ()]).2 = true ↔
      Except.error JsError.untyped ∈
        ([.ok (), .error (.internal .ExecutionFailed), .ok ()] :
          List (Except JsError Unit))) :=
  ⟨(batch_error_isolation [.ok (), .error (.internal .ExecutionFailed), .ok ()]).1,
    (batch_error_isolation [.ok (), .error (.internal .ExecutionFailed), .ok ()]).2.2.1
      1 .ExecutionFailed rfl,
    (batch_error_isolation [.ok (), .error (.internal .ExecutionFailed), .ok ()]).2.2.2⟩

end Crop4mkv
